import Mathlib

/-!
Verification of the madang bookstore workflow (src/customer_adder.py).

The script keeps three duckdb tables (Customer, Book, Orders) and offers two
interactions: tab 1 looks a customer up by name and shows their order history;
tab 2 either inserts an order for an existing customer or registers a new
customer.  We embed the tables as lists of rows and the two tab bodies as pure
functions from the database state and the widget inputs to the new state and
the displayed outcome.
-/

set_option maxHeartbeats 1000000

namespace Madang

/-- A row of the Customer table (columns as in the insert at line 186 of
customer_adder.py: custid, name, address, phone). -/
structure Customer where
  custid : Int
  name : String
  address : String
  phone : String
  deriving DecidableEq

/-- A row of the Book table (bookid, bookname). -/
structure Book where
  bookid : Int
  bookname : String
  deriving DecidableEq

/-- A row of the Orders table (columns as in the insert at line 159:
orderid, custid, bookid, saleprice, orderdate). -/
structure Order where
  orderid : Int
  custid : Int
  bookid : Int
  saleprice : Int
  orderdate : String
  deriving DecidableEq

/-- The database state: the three tables of madang.db. -/
structure DB where
  customers : List Customer
  books : List Book
  orders : List Order
  deriving DecidableEq

/-- SELECT custid FROM Customer WHERE name = n LIMIT 1 (lines 110 and 139):
the custid of the first row whose name equals n, if any. -/
def findCustid (cs : List Customer) (n : String) : Option Int :=
  ((cs.filter (fun c => c.name = n)).head?).map (fun c => c.custid)

/-- The lookup applied to the database state. -/
def lookupCustid (db : DB) (n : String) : Option Int :=
  findCustid db.customers n

/-- SQL aggregate max over a column embedded as a list: none on an empty
table, otherwise the greatest element. -/
def listMax : List Int → Option Int
  | [] => none
  | x :: xs =>
    match listMax xs with
    | none => some x
    | some m => some (max x m)

/-- select max(orderid) as max_id from orders (line 156). -/
def maxOrderid (db : DB) : Option Int :=
  listMax (db.orders.map (fun o => o.orderid))

/-- SELECT max(custid) as max_id FROM Customer (line 182). -/
def maxCustid (db : DB) : Option Int :=
  listMax (db.customers.map (fun c => c.custid))

/-- Python `x or 0` on an optional integer query result: None and 0 are
falsy and give 0, every other value gives itself (lines 157 and 183). -/
def pyOr0 : Option Int → Int
  | none => 0
  | some v => if v = 0 then 0 else v

/-- orderid generation at line 157: (max_id or 0) + 1. -/
def nextOrderid (db : DB) : Int :=
  pyOr0 (maxOrderid db) + 1

/-- custid generation at line 183: (max_id or 0) + 1. -/
def nextCustid (db : DB) : Int :=
  pyOr0 (maxCustid db) + 1

/-- ASCII decimal digit 0-9. -/
def isAsciiDigit (c : Char) : Bool :=
  0x30 ≤ c.toNat && c.toNat ≤ 0x39

/-- The code-point ranges of the characters accepted by Python
str.isdigit: exactly the characters of Unicode Numeric_Type Decimal or
Digit, per the Unicode 14.0 character database shipped with CPython 3.11
(first range: ASCII 0-9; the table also contains, e.g., the superscript
two U+00B2, the Arabic-Indic digits U+0660-U+0669, the Devanagari digits
U+0966-U+096F and the fullwidth digits U+FF10-U+FF19). -/
def pyDigitRanges : List (Nat × Nat) :=
  [(0x30, 0x39), (0xB2, 0xB3), (0xB9, 0xB9), (0x660, 0x669), (0x6F0, 0x6F9),
   (0x7C0, 0x7C9), (0x966, 0x96F), (0x9E6, 0x9EF), (0xA66, 0xA6F),
   (0xAE6, 0xAEF), (0xB66, 0xB6F), (0xBE6, 0xBEF), (0xC66, 0xC6F),
   (0xCE6, 0xCEF), (0xD66, 0xD6F), (0xDE6, 0xDEF), (0xE50, 0xE59),
   (0xED0, 0xED9), (0xF20, 0xF29), (0x1040, 0x1049), (0x1090, 0x1099),
   (0x1369, 0x1371), (0x17E0, 0x17E9), (0x1810, 0x1819), (0x1946, 0x194F),
   (0x19D0, 0x19DA), (0x1A80, 0x1A89), (0x1A90, 0x1A99), (0x1B50, 0x1B59),
   (0x1BB0, 0x1BB9), (0x1C40, 0x1C49), (0x1C50, 0x1C59), (0x2070, 0x2070),
   (0x2074, 0x2079), (0x2080, 0x2089), (0x2460, 0x2468), (0x2474, 0x247C),
   (0x2488, 0x2490), (0x24EA, 0x24EA), (0x24F5, 0x24FD), (0x24FF, 0x24FF),
   (0x2776, 0x277E), (0x2780, 0x2788), (0x278A, 0x2792), (0xA620, 0xA629),
   (0xA8D0, 0xA8D9), (0xA900, 0xA909), (0xA9D0, 0xA9D9), (0xA9F0, 0xA9F9),
   (0xAA50, 0xAA59), (0xABF0, 0xABF9), (0xFF10, 0xFF19), (0x104A0, 0x104A9),
   (0x10A40, 0x10A43), (0x10D30, 0x10D39), (0x10E60, 0x10E68),
   (0x11052, 0x1105A), (0x11066, 0x1106F), (0x110F0, 0x110F9),
   (0x11136, 0x1113F), (0x111D0, 0x111D9), (0x112F0, 0x112F9),
   (0x11450, 0x11459), (0x114D0, 0x114D9), (0x11650, 0x11659),
   (0x116C0, 0x116C9), (0x11730, 0x11739), (0x118E0, 0x118E9),
   (0x11950, 0x11959), (0x11C50, 0x11C59), (0x11D50, 0x11D59),
   (0x11DA0, 0x11DA9), (0x16A60, 0x16A69), (0x16AC0, 0x16AC9),
   (0x16B50, 0x16B59), (0x1D7CE, 0x1D7FF), (0x1E140, 0x1E149),
   (0x1E2F0, 0x1E2F9), (0x1E950, 0x1E959), (0x1F100, 0x1F10A),
   (0x1FBF0, 0x1FBF9)]

/-- Character class of Python str.isdigit (the guard at line 151):
membership in one of the Numeric_Type Decimal or Digit code-point
ranges. -/
def pyCharIsDigit (c : Char) : Bool :=
  pyDigitRanges.any (fun r => r.1 ≤ c.toNat && c.toNat ≤ r.2)

/-- Python price.isdigit() (line 151): nonempty and every character a
Python digit. -/
def pyStrIsdigit (s : String) : Bool :=
  s.length > 0 && s.data.all pyCharIsDigit

/-- Python truthiness of a string: nonempty. -/
def pyTruthy (s : String) : Bool :=
  s.length > 0

/-- Decimal value denoted by a string of ASCII digits, as the interpolated
SQL literal in the insert at line 159 denotes it. -/
def digitsToInt (s : String) : Int :=
  s.data.foldl (fun a c => 10 * a + ((c.toNat : Int) - 0x30)) 0

/-- A row of the tab-1 join result (line 114): c.custid, c.name,
b.bookname, o.orderdate, o.saleprice. -/
structure HistRow where
  custid : Int
  name : String
  bookname : String
  orderdate : String
  saleprice : Int
  deriving DecidableEq

/-- The tab-1 join query (lines 114-115): select c.custid, c.name,
b.bookname, o.orderdate, o.saleprice from Customer c, Book b, Orders o
where c.custid = o.custid and o.bookid = b.bookid and name = n.
The unqualified name resolves to c.name (Book has no name column). -/
def historyRows (cs : List Customer) (bs : List Book) (os : List Order)
    (n : String) : List HistRow :=
  cs.flatMap (fun c =>
    bs.flatMap (fun b =>
      os.filterMap (fun o =>
        if c.custid = o.custid ∧ o.bookid = b.bookid ∧ c.name = n then
          some ⟨c.custid, c.name, b.bookname, o.orderdate, o.saleprice⟩
        else none)))

/-- The join applied to the database state. -/
def orderHistory (db : DB) (n : String) : List HistRow :=
  historyRows db.customers db.books db.orders n

/-- Outcome displayed by tab 1 (lines 104-128). -/
inductive Tab1Result where
  /-- Name field empty: the guard at line 108 fails, no query runs. -/
  | noLookup
  /-- Customer found, join nonempty: the order rows are displayed. -/
  | history (rows : List HistRow)
  /-- Customer found but join empty: registered customer, no orders yet. -/
  | noOrders
  /-- No customer row with the name: customer is not registered. -/
  | notRegistered
  deriving DecidableEq

/-- Tab 1 (customer lookup, lines 104-128).  Purely a read: the state is
not modified. -/
def tab1Step (db : DB) (nameInput : String) : Tab1Result :=
  if nameInput.length > 0 then
    if (lookupCustid db nameInput).isSome then
      if (orderHistory db nameInput).isEmpty then Tab1Result.noOrders
      else Tab1Result.history (orderHistory db nameInput)
    else Tab1Result.notRegistered
  else Tab1Result.noLookup

/-- Outcome of the order-entry part of tab 2 (existing-customer branch,
lines 141-167). -/
inductive OrderAction where
  /-- Submit button not pressed. -/
  | idle
  /-- Validation passed, the order row was inserted with this orderid. -/
  | inserted (orderid : Int)
  /-- Guard at line 151 failed (no book selected, or price empty, or price
  not accepted by isdigit): error shown before any query runs. -/
  | badInput
  /-- Guard passed but the interpolated price is not a plain ASCII digit
  literal, so the insert statement fails inside duckdb and the except
  branch at line 164 reports the error; nothing is committed. -/
  | sqlError
  deriving DecidableEq

/-- Outcome of the registration part of tab 2 (new-customer branch,
lines 169-197). -/
inductive RegisterAction where
  /-- Register button not pressed. -/
  | idle
  /-- Address field empty (line 177): error, no insert. -/
  | noAddress
  /-- Customer row inserted with this custid, then the script reruns. -/
  | registered (custid : Int)
  deriving DecidableEq

/-- Outcome displayed by tab 2 (lines 131-197). -/
inductive Tab2Result where
  /-- Name field empty: the guard at line 138 fails, no query runs. -/
  | noName
  /-- Existing customer: the found custid is confirmed on screen, then the
  order-entry widgets act. -/
  | existing (custid : Int) (act : OrderAction)
  /-- New customer signalled (line 171), then the registration widgets act. -/
  | fresh (act : RegisterAction)
  deriving DecidableEq

/-- The widget inputs a single tab-2 execution reads: the name field, the
book selectbox (None or a Book row; the selectbox options are built from
the Book table at line 91 as "bookid,bookname" tokens, and line 153 takes
the field before the first comma, which is exactly the bookid), the price
field, whether the submit button fired, the address and phone fields,
whether the register button fired, and today's date string (line 154). -/
structure Tab2Inputs where
  name : String
  selectBook : Option Book
  price : String
  submit : Bool
  address : String
  phone : String
  register : Bool
  today : String
  deriving DecidableEq

/-- Tab 2 (transaction entry, lines 131-197) as a function from state and
inputs to new state and outcome.  Branch [A] (lines 141-167) handles an
existing customer: on submit, the guard select_book is not None and price
and price.isdigit() is checked; when it passes, the order row
(nextOrderid, custid, bookid, price, today) is appended — unless the
price contains a non-ASCII digit character, in which case the insert
statement itself fails and is caught.  Branch [B] (lines 169-197) handles
a new customer: on register, an empty address is rejected, otherwise the
customer row (nextCustid, name, address, phone) is appended. -/
def tab2Step (db : DB) (inp : Tab2Inputs) : DB × Tab2Result :=
  if inp.name.length > 0 then
    match lookupCustid db inp.name with
    | some custid =>
      if inp.submit then
        match inp.selectBook with
        | some bk =>
          if pyTruthy inp.price && pyStrIsdigit inp.price then
            if inp.price.data.all isAsciiDigit then
              let o : Order :=
                ⟨nextOrderid db, custid, bk.bookid, digitsToInt inp.price, inp.today⟩
              ({ db with orders := db.orders ++ [o] },
               Tab2Result.existing custid (OrderAction.inserted (nextOrderid db)))
            else (db, Tab2Result.existing custid OrderAction.sqlError)
          else (db, Tab2Result.existing custid OrderAction.badInput)
        | none => (db, Tab2Result.existing custid OrderAction.badInput)
      else (db, Tab2Result.existing custid OrderAction.idle)
    | none =>
      if inp.register then
        if inp.address = "" then (db, Tab2Result.fresh RegisterAction.noAddress)
        else
          let c : Customer := ⟨nextCustid db, inp.name, inp.address, inp.phone⟩
          ({ db with customers := db.customers ++ [c] },
           Tab2Result.fresh (RegisterAction.registered (nextCustid db)))
      else (db, Tab2Result.fresh RegisterAction.idle)
  else (db, Tab2Result.noName)

/-- The inputs of a pure registration interaction: name typed, register
button fired, given address and phone, nothing on the order side. -/
def registerInputs (n addr ph : String) : Tab2Inputs :=
  ⟨n, none, "", false, addr, ph, true, ""⟩

/-- The inputs of a pure order-entry interaction: name typed, a book
selected, price typed, submit button fired. -/
def orderInputs (n : String) (b : Book) (p dt : String) : Tab2Inputs :=
  ⟨n, some b, p, true, "", "", false, dt⟩

/-- Sequential registration of a list of names by a single actor: one
tab-2 execution per name. -/
def seqRegister (db : DB) (names : List String) (addr ph : String) : DB :=
  match names with
  | [] => db
  | n :: rest => seqRegister (tab2Step db (registerInputs n addr ph)).1 rest addr ph

/-! ### Lemmas about the embedded queries -/

theorem pyOr0_some (v : Int) : pyOr0 (some v) = v := by
  by_cases h : v = 0 <;> simp [pyOr0, h]

theorem listMax_eq_none_iff (l : List Int) : listMax l = none ↔ l = [] := by
  cases l with
  | nil => simp [listMax]
  | cons a t =>
    simp only [listMax]
    cases listMax t <;> simp

theorem listMax_le {l : List Int} {m : Int} (h : listMax l = some m) :
    ∀ x ∈ l, x ≤ m := by
  induction l generalizing m with
  | nil => simp [listMax] at h
  | cons a t ih =>
    intro x hx
    rw [listMax] at h
    cases ht : listMax t with
    | none =>
      rw [ht] at h
      have : t = [] := (listMax_eq_none_iff t).mp ht
      subst this
      simp at hx
      simp [hx, Option.some_inj.mp h]
    | some m' =>
      rw [ht] at h
      rcases List.mem_cons.mp hx with hxa | hxt
      · subst hxa
        rw [← Option.some_inj.mp h]
        exact le_max_left _ _
      · calc x ≤ m' := ih ht x hxt
          _ ≤ max a m' := le_max_right _ _
          _ = m := Option.some_inj.mp h

theorem listMax_mem {l : List Int} {m : Int} (h : listMax l = some m) : m ∈ l := by
  induction l generalizing m with
  | nil => simp [listMax] at h
  | cons a t ih =>
    rw [listMax] at h
    cases ht : listMax t with
    | none =>
      rw [ht] at h
      simp [← Option.some_inj.mp h]
    | some m' =>
      rw [ht] at h
      rw [← Option.some_inj.mp h]
      rcases max_choice a m' with hc | hc
      · simp [hc]
      · simp [hc, ih ht]

theorem listMax_append_single (l : List Int) (x : Int) :
    listMax (l ++ [x]) = some ((listMax l).elim x (fun m => max m x)) := by
  induction l with
  | nil => rfl
  | cons a t ih =>
    rw [List.cons_append, listMax, ih, listMax]
    cases ht : listMax t <;> simp [max_assoc]

theorem findCustid_nil (n : String) : findCustid [] n = none := rfl

theorem findCustid_cons (c : Customer) (cs : List Customer) (n : String) :
    findCustid (c :: cs) n = if c.name = n then some c.custid else findCustid cs n := by
  by_cases h : c.name = n <;> simp [findCustid, List.filter_cons, h]

theorem findCustid_eq_none_iff (cs : List Customer) (n : String) :
    findCustid cs n = none ↔ ∀ c ∈ cs, c.name ≠ n := by
  induction cs with
  | nil => simp [findCustid_nil]
  | cons a t ih =>
    rw [findCustid_cons]
    by_cases h : a.name = n <;> simp [h, ih]

theorem findCustid_some {cs : List Customer} {n : String} {i : Int}
    (h : findCustid cs n = some i) : ∃ c ∈ cs, c.name = n ∧ c.custid = i := by
  induction cs with
  | nil => simp [findCustid_nil] at h
  | cons a t ih =>
    rw [findCustid_cons] at h
    by_cases ha : a.name = n
    · rw [if_pos ha] at h
      exact ⟨a, List.mem_cons_self a t, ha, Option.some_inj.mp h⟩
    · rw [if_neg ha] at h
      obtain ⟨c, hc, hcn, hci⟩ := ih h
      exact ⟨c, List.mem_cons_of_mem a hc, hcn, hci⟩

theorem findCustid_exists {cs : List Customer} {n : String}
    (h : ∃ c ∈ cs, c.name = n) :
    ∃ c ∈ cs, c.name = n ∧ findCustid cs n = some c.custid := by
  induction cs with
  | nil => simp at h
  | cons a t ih =>
    by_cases ha : a.name = n
    · exact ⟨a, List.mem_cons_self a t, ha, by rw [findCustid_cons, if_pos ha]⟩
    · obtain ⟨c, hc, hcn⟩ := h
      rcases List.mem_cons.mp hc with rfl | hct
      · exact absurd hcn ha
      · obtain ⟨c', hc', hcn', hf⟩ := ih ⟨c, hct, hcn⟩
        exact ⟨c', List.mem_cons_of_mem a hc', hcn',
          by rw [findCustid_cons, if_neg ha]; exact hf⟩

theorem findCustid_append {cs ds : List Customer} {n : String}
    (h : ∀ c ∈ cs, c.name ≠ n) :
    findCustid (cs ++ ds) n = findCustid ds n := by
  induction cs with
  | nil => simp
  | cons a t ih =>
    rw [List.cons_append, findCustid_cons, if_neg (h a (List.mem_cons_self a t))]
    exact ih (fun c hc => h c (List.mem_cons_of_mem a hc))

theorem orderHistory_eq_nil {db : DB} {n : String}
    (h : ∀ c ∈ db.customers, c.name = n → ∀ o ∈ db.orders, o.custid ≠ c.custid) :
    orderHistory db n = [] := by
  unfold orderHistory historyRows
  rw [List.flatMap_eq_nil_iff]
  intro c hc
  rw [List.flatMap_eq_nil_iff]
  intro b hb
  rw [List.filterMap_eq_nil_iff]
  intro o ho
  simp only [ite_eq_right_iff]
  rintro ⟨h1, h2, h3⟩
  exact (h c hc h3 o ho h1.symm).elim

theorem filterMap_one {α β : Type} (f : α → Option β) (a : α) :
    List.filterMap f [a] = (match f a with | none => [] | some b => [b]) := by
  cases h : f a <;> simp [List.filterMap_cons, h]

theorem flatMap_single_key {α β γ : Type} [DecidableEq γ]
    (key : α → γ) (g : α → β) (l : List α) (b : α)
    (hnd : (l.map key).Nodup) (hb : b ∈ l) :
    l.flatMap (fun x => if key b = key x then [g x] else []) = [g b] := by
  induction l with
  | nil => simp at hb
  | cons a t ih =>
    rw [List.map_cons, List.nodup_cons] at hnd
    rcases List.mem_cons.mp hb with rfl | hbt
    · rw [List.flatMap_cons, if_pos rfl]
      have ht : t.flatMap (fun x => if key b = key x then [g x] else []) = [] := by
        rw [List.flatMap_eq_nil_iff]
        intro x hx
        rw [if_neg]
        intro hk
        exact hnd.1 (hk ▸ List.mem_map_of_mem key hx)
      rw [ht]
      rfl
    · rw [List.flatMap_cons, if_neg, ih hnd.2 hbt]
      · simp
      · intro hk
        exact hnd.1 (hk.symm ▸ List.mem_map_of_mem key hbt)

theorem string_length_pos {s : String} (h : s ≠ "") : s.length > 0 := by
  cases s with
  | mk data =>
    cases data with
    | nil => exact absurd rfl h
    | cons c cs => simp [String.length]

theorem pyCharIsDigit_of_ascii {c : Char} (h : isAsciiDigit c = true) :
    pyCharIsDigit c = true := by
  unfold isAsciiDigit at h
  rw [Bool.and_eq_true] at h
  unfold pyCharIsDigit pyDigitRanges
  rw [List.any_eq_true]
  exact ⟨(0x30, 0x39), by simp, by simp [h.1, h.2]⟩

theorem pyStrIsdigit_of_ascii {s : String} (hne : s ≠ "")
    (h : s.data.all isAsciiDigit = true) : pyStrIsdigit s = true := by
  unfold pyStrIsdigit
  rw [List.all_eq_true] at h
  have hall : s.data.all pyCharIsDigit = true := by
    rw [List.all_eq_true]
    exact fun x hx => pyCharIsDigit_of_ascii (h x hx)
  simp [string_length_pos hne, hall]

/-- nextCustid grows by exactly one when the row it was assigned to is
appended. -/
theorem nextCustid_append (db : DB) (c : Customer) (hc : c.custid = nextCustid db) :
    nextCustid { db with customers := db.customers ++ [c] } = nextCustid db + 1 := by
  unfold nextCustid maxCustid at *
  rw [List.map_append, List.map_singleton, listMax_append_single]
  cases hm : listMax (db.customers.map (fun x => x.custid)) with
  | none =>
    rw [hm] at hc
    simp [pyOr0, hc]
  | some m =>
    rw [hm] at hc
    rw [pyOr0_some] at hc
    have : max m c.custid = c.custid := max_eq_right (by omega)
    simp [pyOr0_some, this, hc]
    try omega

/-- Forward equation for the new-customer registration branch
(lines 176-194). -/
theorem tab2Step_register_eq {db : DB} {inp : Tab2Inputs}
    (hn : inp.name.length > 0) (hl : lookupCustid db inp.name = none)
    (hr : inp.register = true) (ha : inp.address ≠ "") :
    tab2Step db inp =
      ({ db with customers :=
          db.customers ++ [⟨nextCustid db, inp.name, inp.address, inp.phone⟩] },
       Tab2Result.fresh (RegisterAction.registered (nextCustid db))) := by
  unfold tab2Step
  rw [if_pos hn, hl, hr]
  simp [ha]

/-- Forward equation for the order-insert branch (lines 150-162) when all
guards pass and the price is a plain ASCII digit string. -/
theorem tab2Step_order_eq {db : DB} {inp : Tab2Inputs} {cid : Int} {bk : Book}
    (hn : inp.name.length > 0) (hl : lookupCustid db inp.name = some cid)
    (hs : inp.submit = true) (hbk : inp.selectBook = some bk)
    (hp : inp.price ≠ "") (hpd : inp.price.data.all isAsciiDigit = true) :
    tab2Step db inp =
      ({ db with orders := db.orders ++
          [⟨nextOrderid db, cid, bk.bookid, digitsToInt inp.price, inp.today⟩] },
       Tab2Result.existing cid (OrderAction.inserted (nextOrderid db))) := by
  unfold tab2Step
  rw [if_pos hn, hl, hs, hbk]
  have ht : pyTruthy inp.price = true := by
    simp [pyTruthy, string_length_pos hp]
  simp [ht, pyStrIsdigit_of_ascii hp hpd, hpd]

/-- Inversion: an execution that reports an inserted order did find the
custid by lookup, assigned orderid = nextOrderid, and appended exactly
that one order row. -/
theorem tab2Step_inserted_inv {db db' : DB} {inp : Tab2Inputs} {cid oid : Int}
    (h : tab2Step db inp = (db', Tab2Result.existing cid (OrderAction.inserted oid))) :
    lookupCustid db inp.name = some cid ∧ oid = nextOrderid db ∧
    db'.customers = db.customers ∧ db'.books = db.books ∧
    ∃ bk : Book, inp.selectBook = some bk ∧
      db'.orders = db.orders ++
        [⟨nextOrderid db, cid, bk.bookid, digitsToInt inp.price, inp.today⟩] := by
  unfold tab2Step at h
  repeat' split at h
  all_goals simp_all
  all_goals (obtain ⟨h1, h2⟩ := h; subst h1; simp_all)

/-- Inversion: an execution that reports a registered customer found no
row by lookup, assigned custid = nextCustid, required a nonempty address,
and appended exactly that one customer row. -/
theorem tab2Step_registered_inv {db db' : DB} {inp : Tab2Inputs} {cid : Int}
    (h : tab2Step db inp = (db', Tab2Result.fresh (RegisterAction.registered cid))) :
    lookupCustid db inp.name = none ∧ cid = nextCustid db ∧
    inp.address ≠ "" ∧ db'.books = db.books ∧ db'.orders = db.orders ∧
    db'.customers = db.customers ++ [⟨nextCustid db, inp.name, inp.address, inp.phone⟩] := by
  unfold tab2Step at h
  repeat' split at h
  all_goals simp_all
  all_goals (obtain ⟨h1, h2⟩ := h; subst h1; simp_all)

/-- The join after appending one fresh customer and one order for them:
no old customer carries the name, no old order carries the new custid,
the order's bookid is the bookid of a catalogued book b and bookids are
unique, so the join returns exactly the one joined row. -/
theorem historyRows_append_single (cs : List Customer) (bs : List Book)
    (os : List Order) (cnew : Customer) (onew : Order) (b : Book)
    (habs : ∀ c ∈ cs, c.name ≠ cnew.name)
    (hold : ∀ o ∈ os, o.custid ≠ cnew.custid)
    (hoc : onew.custid = cnew.custid)
    (hob : onew.bookid = b.bookid)
    (hb : b ∈ bs) (hnd : (bs.map (fun x => x.bookid)).Nodup) :
    historyRows (cs ++ [cnew]) bs (os ++ [onew]) cnew.name =
      [⟨cnew.custid, cnew.name, b.bookname, onew.orderdate, onew.saleprice⟩] := by
  unfold historyRows
  rw [List.flatMap_append]
  have h1 : cs.flatMap (fun c => bs.flatMap (fun b' =>
      (os ++ [onew]).filterMap (fun o =>
        if c.custid = o.custid ∧ o.bookid = b'.bookid ∧ c.name = cnew.name then
          some (⟨c.custid, c.name, b'.bookname, o.orderdate, o.saleprice⟩ : HistRow)
        else none))) = [] := by
    rw [List.flatMap_eq_nil_iff]
    intro c hc
    rw [List.flatMap_eq_nil_iff]
    intro b' hb'
    rw [List.filterMap_eq_nil_iff]
    intro o ho
    simp only [ite_eq_right_iff]
    rintro ⟨h1, h2, h3⟩
    exact (habs c hc h3).elim
  rw [h1, List.nil_append, List.flatMap_singleton]
  have h2 : ∀ b' : Book, (os ++ [onew]).filterMap (fun o =>
      if cnew.custid = o.custid ∧ o.bookid = b'.bookid ∧ cnew.name = cnew.name then
        some (⟨cnew.custid, cnew.name, b'.bookname, o.orderdate, o.saleprice⟩ : HistRow)
      else none) =
      if b.bookid = b'.bookid then
        [(⟨cnew.custid, cnew.name, b'.bookname, onew.orderdate, onew.saleprice⟩ : HistRow)]
      else [] := by
    intro b'
    rw [List.filterMap_append]
    have hos : os.filterMap (fun o =>
        if cnew.custid = o.custid ∧ o.bookid = b'.bookid ∧ cnew.name = cnew.name then
          some (⟨cnew.custid, cnew.name, b'.bookname, o.orderdate, o.saleprice⟩ : HistRow)
        else none) = [] := by
      rw [List.filterMap_eq_nil_iff]
      intro o ho
      simp only [ite_eq_right_iff]
      rintro ⟨g1, g2, g3⟩
      exact (hold o ho g1.symm).elim
    rw [hos, List.nil_append]
    by_cases hbb : b.bookid = b'.bookid
    · rw [filterMap_one,
        if_pos (show cnew.custid = onew.custid ∧ onew.bookid = b'.bookid ∧
          cnew.name = cnew.name from ⟨hoc.symm, hob.trans hbb, rfl⟩),
        if_pos hbb]
    · rw [filterMap_one, if_neg, if_neg hbb]
      rintro ⟨g1, g2, g3⟩
      exact hbb (hob ▸ g2)
  calc bs.flatMap (fun b' => (os ++ [onew]).filterMap (fun o =>
        if cnew.custid = o.custid ∧ o.bookid = b'.bookid ∧ cnew.name = cnew.name then
          some (⟨cnew.custid, cnew.name, b'.bookname, o.orderdate, o.saleprice⟩ : HistRow)
        else none))
      = bs.flatMap (fun b' =>
          if b.bookid = b'.bookid then
            [(⟨cnew.custid, cnew.name, b'.bookname, onew.orderdate, onew.saleprice⟩ : HistRow)]
          else []) := by
        exact List.flatMap_congr (fun b' hb' => h2 b')
    _ = [⟨cnew.custid, cnew.name, b.bookname, onew.orderdate, onew.saleprice⟩] := by
        exact flatMap_single_key (fun x => x.bookid)
          (fun b' => (⟨cnew.custid, cnew.name, b'.bookname, onew.orderdate,
            onew.saleprice⟩ : HistRow))
          bs b hnd hb

/-- No existing order can carry the custid about to be assigned: every
order references an existing customer and every existing custid is at
most the current maximum. -/
theorem orders_custid_ne_next (db : DB)
    (href : ∀ o ∈ db.orders, ∃ c ∈ db.customers, o.custid = c.custid) :
    ∀ o ∈ db.orders, o.custid ≠ nextCustid db := by
  intro o ho heq
  obtain ⟨c, hc, hoc⟩ := href o ho
  have hmem : c.custid ∈ db.customers.map (fun x => x.custid) :=
    List.mem_map_of_mem _ hc
  cases hm : maxCustid db with
  | none =>
    have hnil := (listMax_eq_none_iff _).mp hm
    simp [hnil] at hmem
  | some m =>
    have hle := listMax_le hm _ hmem
    have hnext : nextCustid db = m + 1 := by
      simp [nextCustid, hm, pyOr0_some]
    rw [hnext] at heq
    omega

/-- Claim C2: round trip.  Starting from a state in which no customer
carries the given name, every order references an existing customer and
the catalogued bookids are distinct, registering the customer through the
new-customer workflow and then inserting a single order for them (for a
catalogued book, with an all-digit price) makes the tab-1 order-history
query for that name return exactly that one order's book name, order
date and sale price (alongside the new custid and the name). -/
theorem c2_round_trip (db : DB) (n addr ph p dt : String) (b : Book)
    (hn : n.length > 0)
    (habs : ∀ c ∈ db.customers, c.name ≠ n)
    (href : ∀ o ∈ db.orders, ∃ c ∈ db.customers, o.custid = c.custid)
    (hb : b ∈ db.books)
    (hndbk : (db.books.map (fun x => x.bookid)).Nodup)
    (haddr : addr ≠ "")
    (hp : p ≠ "") (hpd : p.data.all isAsciiDigit = true) :
    tab1Step (tab2Step (tab2Step db (registerInputs n addr ph)).1
        (orderInputs n b p dt)).1 n =
      Tab1Result.history [⟨nextCustid db, n, b.bookname, dt, digitsToInt p⟩] := by
  have hl0 : lookupCustid db n = none := (findCustid_eq_none_iff _ _).mpr habs
  have hdb1 : (tab2Step db (registerInputs n addr ph)).1 =
      { db with customers := db.customers ++ [⟨nextCustid db, n, addr, ph⟩] } := by
    rw [tab2Step_register_eq hn hl0 rfl haddr]
    rfl
  rw [hdb1]
  have hfind : findCustid (db.customers ++ [⟨nextCustid db, n, addr, ph⟩]) n =
      some (nextCustid db) := by
    rw [findCustid_append habs, findCustid_cons]
    simp
  have hdb2 : (tab2Step
      { db with customers := db.customers ++ [⟨nextCustid db, n, addr, ph⟩] }
      (orderInputs n b p dt)).1 =
      { db with
        customers := db.customers ++ [⟨nextCustid db, n, addr, ph⟩],
        orders := db.orders ++
          [⟨nextOrderid db, nextCustid db, b.bookid, digitsToInt p, dt⟩] } := by
    have hlook : lookupCustid
        { db with customers := db.customers ++ [⟨nextCustid db, n, addr, ph⟩] } n =
        some (nextCustid db) := hfind
    rw [@tab2Step_order_eq _ (orderInputs n b p dt) (nextCustid db) b hn hlook
      rfl rfl hp hpd]
    rfl
  rw [hdb2]
  have hhist : orderHistory
      { db with
        customers := db.customers ++ [⟨nextCustid db, n, addr, ph⟩],
        orders := db.orders ++
          [⟨nextOrderid db, nextCustid db, b.bookid, digitsToInt p, dt⟩] } n =
      [⟨nextCustid db, n, b.bookname, dt, digitsToInt p⟩] := by
    show historyRows (db.customers ++ [⟨nextCustid db, n, addr, ph⟩]) db.books
        (db.orders ++ [⟨nextOrderid db, nextCustid db, b.bookid, digitsToInt p, dt⟩]) n =
      [⟨nextCustid db, n, b.bookname, dt, digitsToInt p⟩]
    exact historyRows_append_single db.customers db.books db.orders
      ⟨nextCustid db, n, addr, ph⟩
      ⟨nextOrderid db, nextCustid db, b.bookid, digitsToInt p, dt⟩ b
      habs (orders_custid_ne_next db href) rfl rfl hb hndbk
  unfold tab1Step
  rw [if_pos hn]
  have hsome : (lookupCustid
      { db with
        customers := db.customers ++ [⟨nextCustid db, n, addr, ph⟩],
        orders := db.orders ++
          [⟨nextOrderid db, nextCustid db, b.bookid, digitsToInt p, dt⟩] } n).isSome := by
    show (findCustid (db.customers ++ [⟨nextCustid db, n, addr, ph⟩]) n).isSome
    rw [hfind]
    rfl
  rw [if_pos hsome, hhist]
  simp

/-- Witness for C2 at a concrete state: empty Customer and Orders tables,
one catalogued book. -/
theorem c2_witness :
    (("kim" : String).length > 0) ∧
    tab1Step (tab2Step (tab2Step ⟨[], [⟨7, "sqlbook"⟩], []⟩
        (registerInputs "kim" "seoul" "111")).1
        (orderInputs "kim" ⟨7, "sqlbook"⟩ "500" "2026-01-01")).1 "kim" =
      Tab1Result.history [⟨1, "kim", "sqlbook", "2026-01-01", 500⟩] := by
  refine ⟨by decide, ?_⟩
  have h := c2_round_trip ⟨[], [⟨7, "sqlbook"⟩], []⟩ "kim" "seoul" "111" "500"
    "2026-01-01" ⟨7, "sqlbook"⟩ (by decide) (by decide) (by decide) (by decide)
    (by decide) (by decide) (by decide) (by decide)
  have he : nextCustid ⟨[], [⟨7, "sqlbook"⟩], []⟩ = 1 := by decide
  have he2 : digitsToInt "500" = 500 := by decide
  rw [he, he2] at h
  exact h

theorem pyStrIsdigit_false_of_bad {s : String} {c : Char}
    (hc : c ∈ s.data) (hcd : pyCharIsDigit c = false) :
    pyStrIsdigit s = false := by
  cases h : s.data.all pyCharIsDigit with
  | false => simp [pyStrIsdigit, h]
  | true =>
    rw [List.all_eq_true] at h
    have := h c hc
    rw [hcd] at this
    exact absurd this (by simp)

/-- Structural case analysis of one tab-2 execution: the Book table is
never written, and either the Customer table is unchanged and at most one
order row is appended, or the Orders table is unchanged and exactly one
customer row is appended. -/
theorem tab2Step_cases (db : DB) (inp : Tab2Inputs) :
    (tab2Step db inp).1.books = db.books ∧
    (((tab2Step db inp).1.customers = db.customers ∧
      ((tab2Step db inp).1.orders = db.orders ∨
       ∃ o, (tab2Step db inp).1.orders = db.orders ++ [o])) ∨
     ((tab2Step db inp).1.orders = db.orders ∧
      ∃ c, (tab2Step db inp).1.customers = db.customers ++ [c])) := by
  unfold tab2Step
  repeat' split
  all_goals simp

/-- Claim C1: identifier assignment.  listMax is the SQL maximum (it is a
member bounding all members); nextOrderid and nextCustid equal that
maximum plus one, and 1 on an empty table; every order inserted by the
workflow carries orderid = nextOrderid and every customer registered by
the workflow carries custid = nextCustid, which is 1 when the Customer
table was empty. -/
theorem c1_id_assignment :
    (∀ (l : List Int) (m : Int), listMax l = some m → m ∈ l ∧ ∀ x ∈ l, x ≤ m) ∧
    (∀ db : DB, db.orders = [] → nextOrderid db = 1) ∧
    (∀ (db : DB) (m : Int), maxOrderid db = some m → nextOrderid db = m + 1) ∧
    (∀ db : DB, db.customers = [] → nextCustid db = 1) ∧
    (∀ (db : DB) (m : Int), maxCustid db = some m → nextCustid db = m + 1) ∧
    (∀ (db db' : DB) (inp : Tab2Inputs) (cid : Int),
      tab2Step db inp = (db', Tab2Result.fresh (RegisterAction.registered cid)) →
      cid = nextCustid db ∧ (db.customers = [] → cid = 1)) ∧
    (∀ (db db' : DB) (inp : Tab2Inputs) (cid oid : Int),
      tab2Step db inp = (db', Tab2Result.existing cid (OrderAction.inserted oid)) →
      oid = nextOrderid db) := by
  refine ⟨fun l m h => ⟨listMax_mem h, listMax_le h⟩, ?_, ?_, ?_, ?_, ?_, ?_⟩
  · intro db h
    simp [nextOrderid, maxOrderid, h, listMax, pyOr0]
  · intro db m h
    simp [nextOrderid, h, pyOr0_some]
  · intro db h
    simp [nextCustid, maxCustid, h, listMax, pyOr0]
  · intro db m h
    simp [nextCustid, h, pyOr0_some]
  · intro db db' inp cid h
    have hv := tab2Step_registered_inv h
    refine ⟨hv.2.1, fun hemp => ?_⟩
    rw [hv.2.1]
    simp [nextCustid, maxCustid, hemp, listMax, pyOr0]
  · intro db db' inp cid oid h
    exact (tab2Step_inserted_inv h).2.1

/-- Witness for C1 at concrete tables. -/
theorem c1_witness :
    nextCustid ⟨[], [], []⟩ = 1 ∧
    nextOrderid ⟨[], [], [⟨4, 1, 7, 100, "d"⟩]⟩ = 5 ∧
    (1 : Int) = nextCustid ⟨[], [], []⟩ :=
  ⟨c1_id_assignment.2.2.2.1 ⟨[], [], []⟩ rfl,
   c1_id_assignment.2.2.1 ⟨[], [], [⟨4, 1, 7, 100, "d"⟩]⟩ 4 (by decide),
   (c1_id_assignment.2.2.2.2.2.1 ⟨[], [], []⟩ ⟨[⟨1, "kim", "seoul", ""⟩], [], []⟩
     (registerInputs "kim" "seoul" "") 1 (by decide)).1⟩

/-- C3 counterexample: a new customer is registered although the phone
field is empty — the workflow requires only the address, so "requires
both an address and a phone" fails. -/
theorem c3_counterexample_phone_not_required :
    tab2Step ⟨[], [], []⟩ ⟨"kim", none, "", false, "seoul", "", true, ""⟩ =
      (⟨[⟨1, "kim", "seoul", ""⟩], [], []⟩,
       Tab2Result.fresh (RegisterAction.registered 1)) := by
  decide

/-- Claim C3 (amended): for every name with at least one matching Customer
row the lookup returns the first matching row's custid; when no row
matches, the workflow signals the new-customer branch, rejects an empty
address, and otherwise creates the record with whatever phone string was
supplied (the phone is not required). -/
theorem c3_customer_resolution_amended :
    (∀ (db : DB) (n : String), (∃ c ∈ db.customers, c.name = n) →
      ∃ c ∈ db.customers, c.name = n ∧ lookupCustid db n = some c.custid) ∧
    (∀ (db : DB) (inp : Tab2Inputs), inp.name.length > 0 →
      lookupCustid db inp.name = none →
      ∃ act, (tab2Step db inp).2 = Tab2Result.fresh act) ∧
    (∀ (db : DB) (inp : Tab2Inputs), inp.name.length > 0 →
      lookupCustid db inp.name = none → inp.register = true → inp.address = "" →
      tab2Step db inp = (db, Tab2Result.fresh RegisterAction.noAddress)) ∧
    (∀ (db : DB) (inp : Tab2Inputs), inp.name.length > 0 →
      lookupCustid db inp.name = none → inp.register = true → inp.address ≠ "" →
      tab2Step db inp =
        ({ db with customers :=
            db.customers ++ [⟨nextCustid db, inp.name, inp.address, inp.phone⟩] },
         Tab2Result.fresh (RegisterAction.registered (nextCustid db)))) := by
  refine ⟨?_, ?_, ?_, ?_⟩
  · intro db n hex
    exact findCustid_exists hex
  · intro db inp hn hl
    unfold tab2Step
    rw [if_pos hn]
    simp only [hl]
    by_cases hr : inp.register
    · by_cases ha : inp.address = "" <;> simp [hr, ha]
    · simp [hr]
  · intro db inp hn hl hr ha
    unfold tab2Step
    rw [if_pos hn]
    simp [hl, hr, ha]
  · intro db inp hn hl hr ha
    exact tab2Step_register_eq hn hl hr ha

/-- Witness for C3 at concrete inputs: an existing name resolves to its
custid; an unknown name with empty address is rejected; an unknown name
with an address is created, even with an empty phone. -/
theorem c3_witness :
    (∃ c ∈ ([⟨3, "kim", "seoul", "111"⟩] : List Customer), c.name = "kim" ∧
      lookupCustid ⟨[⟨3, "kim", "seoul", "111"⟩], [], []⟩ "kim" = some c.custid) ∧
    tab2Step ⟨[], [], []⟩ ⟨"lee", none, "", false, "", "9", true, ""⟩ =
      (⟨[], [], []⟩, Tab2Result.fresh RegisterAction.noAddress) ∧
    tab2Step ⟨[], [], []⟩ ⟨"lee", none, "", false, "busan", "", true, ""⟩ =
      ({ customers := [⟨1, "lee", "busan", ""⟩], books := [], orders := [] },
       Tab2Result.fresh (RegisterAction.registered 1)) :=
  ⟨c3_customer_resolution_amended.1 ⟨[⟨3, "kim", "seoul", "111"⟩], [], []⟩ "kim"
     (by decide),
   c3_customer_resolution_amended.2.2.1 ⟨[], [], []⟩
     ⟨"lee", none, "", false, "", "9", true, ""⟩ (by decide) (by decide) rfl rfl,
   c3_customer_resolution_amended.2.2.2 ⟨[], [], []⟩
     ⟨"lee", none, "", false, "busan", "", true, ""⟩ (by decide) (by decide) rfl
     (by decide)⟩

/-- C4 counterexample: the one-character price "²" (superscript two,
U+00B2) is not an ASCII decimal digit, yet Python str.isdigit accepts it,
so the submission passes the guard, executes the max(orderid) query and
the insert — which then fails inside the database (sqlError) — instead of
being rejected before query execution. -/
theorem c4_counterexample_superscript_digit :
    pyStrIsdigit "²" = true ∧
    (∃ c ∈ "²".data, isAsciiDigit c = false) ∧
    tab2Step ⟨[⟨1, "kim", "seoul", "111"⟩], [⟨7, "sqlbook"⟩], []⟩
        (orderInputs "kim" ⟨7, "sqlbook"⟩ "²" "2026-01-01") =
      (⟨[⟨1, "kim", "seoul", "111"⟩], [⟨7, "sqlbook"⟩], []⟩,
       Tab2Result.existing 1 OrderAction.sqlError) := by
  decide

/-- A string passing str.isdigit is nonempty, hence truthy. -/
theorem pyTruthy_of_isdigit {s : String} (h : pyStrIsdigit s = true) :
    pyTruthy s = true := by
  unfold pyStrIsdigit at h
  rw [Bool.and_eq_true] at h
  exact h.1

/-- Claim C4 (amended): an order submission whose price is empty or
contains a character outside Python's str.isdigit class is rejected
before any query executes — the badInput error is shown and the state is
unchanged; a submission whose price passes str.isdigit but contains a
character that is not an ASCII 0-9 digit instead reaches query
execution, where the interpolated insert fails and is caught (sqlError),
also leaving the state unchanged. -/
theorem c4_price_validation_amended :
    (∀ (db : DB) (inp : Tab2Inputs) (cid : Int),
      inp.name.length > 0 → lookupCustid db inp.name = some cid →
      inp.submit = true →
      (inp.price = "" ∨ ∃ c ∈ inp.price.data, pyCharIsDigit c = false) →
      tab2Step db inp = (db, Tab2Result.existing cid OrderAction.badInput)) ∧
    (∀ (db : DB) (inp : Tab2Inputs) (cid : Int) (bk : Book),
      inp.name.length > 0 → lookupCustid db inp.name = some cid →
      inp.submit = true → inp.selectBook = some bk →
      pyStrIsdigit inp.price = true →
      (∃ c ∈ inp.price.data, isAsciiDigit c = false) →
      tab2Step db inp = (db, Tab2Result.existing cid OrderAction.sqlError)) := by
  constructor
  · intro db inp cid hn hl hs hbad
    have hguard : (pyTruthy inp.price && pyStrIsdigit inp.price) = false := by
      rcases hbad with hemp | ⟨c, hc, hcd⟩
      · simp [pyTruthy, hemp]
      · rw [pyStrIsdigit_false_of_bad hc hcd, Bool.and_false]
    unfold tab2Step
    rw [if_pos hn]
    simp only [hl, hs]
    cases hbk : inp.selectBook with
    | none => simp
    | some bk => simp [hguard]
  · intro db inp cid bk hn hl hs hbk hpd hbadc
    obtain ⟨c, hc, hcd⟩ := hbadc
    have hguard : (pyTruthy inp.price && pyStrIsdigit inp.price) = true := by
      rw [pyTruthy_of_isdigit hpd, hpd]
      rfl
    have hascii : inp.price.data.all isAsciiDigit = false := by
      cases hall : inp.price.data.all isAsciiDigit with
      | false => rfl
      | true =>
        rw [List.all_eq_true] at hall
        have := hall c hc
        rw [hcd] at this
        exact absurd this (by simp)
    unfold tab2Step
    rw [if_pos hn]
    simp only [hl, hs, hbk]
    simp [hguard, hascii]

/-- Witness for C4 at concrete states: the price "12a" (containing the
ASCII non-digit letter a) is rejected before any query with no state
change; the price "०" (Devanagari zero U+0966, accepted by str.isdigit)
passes the guard and ends in the caught database error, also with no
state change. -/
theorem c4_witness :
    tab2Step ⟨[⟨1, "kim", "seoul", "111"⟩], [⟨7, "sqlbook"⟩], []⟩
        (orderInputs "kim" ⟨7, "sqlbook"⟩ "12a" "2026-01-01") =
      (⟨[⟨1, "kim", "seoul", "111"⟩], [⟨7, "sqlbook"⟩], []⟩,
       Tab2Result.existing 1 OrderAction.badInput) ∧
    tab2Step ⟨[⟨1, "kim", "seoul", "111"⟩], [⟨7, "sqlbook"⟩], []⟩
        (orderInputs "kim" ⟨7, "sqlbook"⟩ "०" "2026-01-01") =
      (⟨[⟨1, "kim", "seoul", "111"⟩], [⟨7, "sqlbook"⟩], []⟩,
       Tab2Result.existing 1 OrderAction.sqlError) :=
  ⟨c4_price_validation_amended.1 ⟨[⟨1, "kim", "seoul", "111"⟩], [⟨7, "sqlbook"⟩], []⟩
     (orderInputs "kim" ⟨7, "sqlbook"⟩ "12a" "2026-01-01") 1 (by decide) (by decide)
     rfl (Or.inr ⟨'a', by decide, by decide⟩),
   c4_price_validation_amended.2 ⟨[⟨1, "kim", "seoul", "111"⟩], [⟨7, "sqlbook"⟩], []⟩
     (orderInputs "kim" ⟨7, "sqlbook"⟩ "०" "2026-01-01") 1 ⟨7, "sqlbook"⟩
     (by decide) (by decide) rfl rfl (by decide) ⟨'०', by decide, by decide⟩⟩

/-- Claim C6: an order row reported inserted always references a customer
found by lookup in the same execution: a pre-existing Customer row holds
the typed name and the inserted custid, the Customer table is unchanged,
and the one appended order row's custid is that existing row's custid. -/
theorem c6_order_custid_from_lookup {db db' : DB} {inp : Tab2Inputs}
    {cid oid : Int}
    (h : tab2Step db inp = (db', Tab2Result.existing cid (OrderAction.inserted oid))) :
    (∃ c ∈ db.customers, c.name = inp.name ∧ c.custid = cid) ∧
    db'.customers = db.customers ∧
    ∃ o : Order, db'.orders = db.orders ++ [o] ∧ o.custid = cid ∧
      ∃ c ∈ db'.customers, c.custid = o.custid := by
  obtain ⟨hl, hoid, hcust, hbooks, bk, hbk, hord⟩ := tab2Step_inserted_inv h
  obtain ⟨c, hc, hcn, hci⟩ := findCustid_some hl
  refine ⟨⟨c, hc, hcn, hci⟩, hcust,
    ⟨nextOrderid db, cid, bk.bookid, digitsToInt inp.price, inp.today⟩, hord, rfl,
    c, ?_, hci⟩
  rw [hcust]
  exact hc

/-- Witness for C6 at a concrete execution. -/
theorem c6_witness :
    (∃ c ∈ ([⟨1, "kim", "seoul", "111"⟩] : List Customer),
        c.name = "kim" ∧ c.custid = 1) ∧
    (⟨[⟨1, "kim", "seoul", "111"⟩], [⟨7, "sqlbook"⟩],
        [⟨1, 1, 7, 500, "d"⟩]⟩ : DB).customers = [⟨1, "kim", "seoul", "111"⟩] ∧
    ∃ o : Order, (⟨[⟨1, "kim", "seoul", "111"⟩], [⟨7, "sqlbook"⟩],
        [⟨1, 1, 7, 500, "d"⟩]⟩ : DB).orders = [] ++ [o] ∧ o.custid = 1 ∧
      ∃ c ∈ (⟨[⟨1, "kim", "seoul", "111"⟩], [⟨7, "sqlbook"⟩],
        [⟨1, 1, 7, 500, "d"⟩]⟩ : DB).customers, c.custid = o.custid :=
  @c6_order_custid_from_lookup ⟨[⟨1, "kim", "seoul", "111"⟩], [⟨7, "sqlbook"⟩], []⟩
    ⟨[⟨1, "kim", "seoul", "111"⟩], [⟨7, "sqlbook"⟩], [⟨1, 1, 7, 500, "d"⟩]⟩
    (orderInputs "kim" ⟨7, "sqlbook"⟩ "500" "d") 1 1 (by decide)

/-- Claim C7: a registered customer with no orders is reported as
noOrders, an unknown name as notRegistered, and the two outcomes are
distinct. -/
theorem c7_no_orders_vs_not_registered (db : DB) (n : String) (hn : n.length > 0) :
    ((∃ c ∈ db.customers, c.name = n) →
      (∀ c ∈ db.customers, c.name = n → ∀ o ∈ db.orders, o.custid ≠ c.custid) →
      tab1Step db n = Tab1Result.noOrders) ∧
    ((∀ c ∈ db.customers, c.name ≠ n) → tab1Step db n = Tab1Result.notRegistered) ∧
    Tab1Result.noOrders ≠ Tab1Result.notRegistered := by
  refine ⟨?_, ?_, by simp⟩
  · intro hex hno
    obtain ⟨c, hc, hcn, hf⟩ := findCustid_exists hex
    unfold tab1Step
    rw [if_pos hn]
    have hsome : (lookupCustid db n).isSome = true := by
      show (findCustid db.customers n).isSome = true
      rw [hf]
      rfl
    rw [if_pos hsome, orderHistory_eq_nil hno]
    rfl
  · intro habs
    have hnone : lookupCustid db n = none := (findCustid_eq_none_iff _ _).mpr habs
    unfold tab1Step
    rw [if_pos hn]
    simp [hnone]

/-- Witness for C7 at concrete states: a customer whose custid appears in
no order, and a name with no customer row. -/
theorem c7_witness :
    tab1Step ⟨[⟨1, "kim", "seoul", "111"⟩], [⟨7, "sqlbook"⟩],
        [⟨5, 2, 7, 100, "d"⟩]⟩ "kim" = Tab1Result.noOrders ∧
    tab1Step ⟨[⟨1, "kim", "seoul", "111"⟩], [], []⟩ "lee" =
      Tab1Result.notRegistered :=
  ⟨(c7_no_orders_vs_not_registered ⟨[⟨1, "kim", "seoul", "111"⟩], [⟨7, "sqlbook"⟩],
      [⟨5, 2, 7, 100, "d"⟩]⟩ "kim" (by decide)).1 (by decide) (by decide),
   (c7_no_orders_vs_not_registered ⟨[⟨1, "kim", "seoul", "111"⟩], [], []⟩ "lee"
      (by decide)).2.1 (by decide)⟩

/-- C8 counterexample: the whitespace-only name " " passes the
len(name) > 0 guard in both tabs, so the lookup query is executed (tab 1
reaches the notRegistered outcome and tab 2 reaches the new-customer
branch, neither of which is the no-lookup outcome). -/
theorem c8_counterexample_whitespace_name :
    tab1Step ⟨[], [], []⟩ " " = Tab1Result.notRegistered ∧
    Tab1Result.notRegistered ≠ Tab1Result.noLookup ∧
    (tab2Step ⟨[], [], []⟩ ⟨" ", none, "", false, "", "", false, ""⟩).2 =
      Tab2Result.fresh RegisterAction.idle ∧
    Tab2Result.fresh RegisterAction.idle ≠ Tab2Result.noName := by
  decide

/-- Claim C8 (amended): only empty name strings are rejected before the
lookup; a whitespace-only name has positive length and proceeds to the
lookup. -/
theorem c8_empty_name_amended (db : DB) (inp : Tab2Inputs) (n : String)
    (hn : n.length = 0) (hin : inp.name.length = 0) :
    tab1Step db n = Tab1Result.noLookup ∧
    tab2Step db inp = (db, Tab2Result.noName) := by
  constructor
  · unfold tab1Step
    rw [if_neg (by omega)]
  · unfold tab2Step
    rw [if_neg (by omega)]

/-- Witness for C8 with the empty name. -/
theorem c8_witness :
    tab1Step ⟨[⟨1, "kim", "seoul", "111"⟩], [], []⟩ "" = Tab1Result.noLookup ∧
    tab2Step ⟨[⟨1, "kim", "seoul", "111"⟩], [], []⟩
        ⟨"", none, "", false, "", "", false, ""⟩ =
      (⟨[⟨1, "kim", "seoul", "111"⟩], [], []⟩, Tab2Result.noName) :=
  c8_empty_name_amended ⟨[⟨1, "kim", "seoul", "111"⟩], [], []⟩
    ⟨"", none, "", false, "", "", false, ""⟩ "" rfl rfl

/-- Claim C9: frame property of the only state-changing operation: a tab-2
execution only appends rows — the old Customer and Orders lists are
initial segments of the new ones and the Book table is unchanged (tab 1
takes the state and returns only a display outcome, so it writes
nothing by construction). -/
theorem c9_insert_only_frame (db : DB) (inp : Tab2Inputs) :
    (∃ t, (tab2Step db inp).1.customers = db.customers ++ t) ∧
    (∃ t, (tab2Step db inp).1.orders = db.orders ++ t) ∧
    (tab2Step db inp).1.books = db.books := by
  obtain ⟨hb, hcase⟩ := tab2Step_cases db inp
  rcases hcase with ⟨hc, ho | ⟨o, ho⟩⟩ | ⟨ho, c, hc⟩
  · exact ⟨⟨[], by simp [hc]⟩, ⟨[], by simp [ho]⟩, hb⟩
  · exact ⟨⟨[], by simp [hc]⟩, ⟨[o], ho⟩, hb⟩
  · exact ⟨⟨[c], hc⟩, ⟨[], by simp [ho]⟩, hb⟩

/-- Claim C10: at most one row is inserted per execution, customer
creation and order creation never both happen, and a registration leaves
the Orders table untouched (the script reruns instead of continuing to
the order form). -/
theorem c10_at_most_one_insert (db : DB) (inp : Tab2Inputs) :
    ((tab2Step db inp).1.customers.length + (tab2Step db inp).1.orders.length ≤
      db.customers.length + db.orders.length + 1) ∧
    ((tab2Step db inp).1.customers ≠ db.customers →
      (tab2Step db inp).1.orders = db.orders) ∧
    ((tab2Step db inp).1.orders ≠ db.orders →
      (tab2Step db inp).1.customers = db.customers) ∧
    (∀ (db' : DB) (cid : Int),
      tab2Step db inp = (db', Tab2Result.fresh (RegisterAction.registered cid)) →
      db'.orders = db.orders) := by
  obtain ⟨hb, hcase⟩ := tab2Step_cases db inp
  refine ⟨?_, ?_, ?_, ?_⟩
  · rcases hcase with ⟨hc, ho | ⟨o, ho⟩⟩ | ⟨ho, c, hc⟩ <;> simp [hc, ho] <;> omega
  · intro hne
    rcases hcase with ⟨hc, ho | ⟨o, ho⟩⟩ | ⟨ho, c, hc⟩
    · exact absurd hc hne
    · exact absurd hc hne
    · exact ho
  · intro hne
    rcases hcase with ⟨hc, ho | ⟨o, ho⟩⟩ | ⟨ho, c, hc⟩
    · exact hc
    · exact hc
    · exact absurd ho hne
  · intro db' cid h
    exact (tab2Step_registered_inv h).2.2.2.2.1

/-- Witness for C10: a registration changes customers and leaves orders
unchanged. -/
theorem c10_witness :
    (⟨[⟨1, "kim", "seoul", "1"⟩], [], []⟩ : DB).orders =
      (⟨[], [], []⟩ : DB).orders ∧
    (tab2Step ⟨[], [], []⟩ (registerInputs "kim" "seoul" "1")).1.orders =
      (⟨[], [], []⟩ : DB).orders :=
  ⟨(c10_at_most_one_insert ⟨[], [], []⟩ (registerInputs "kim" "seoul" "1")).2.2.2
      ⟨[⟨1, "kim", "seoul", "1"⟩], [], []⟩ 1 (by decide),
   (c10_at_most_one_insert ⟨[], [], []⟩ (registerInputs "kim" "seoul" "1")).2.1
      (by decide)⟩

/-- Sequential registration only appends customer rows. -/
theorem seqRegister_extends (names : List String) (db : DB) (addr ph : String) :
    ∃ t, (seqRegister db names addr ph).customers = db.customers ++ t := by
  induction names generalizing db with
  | nil => exact ⟨[], by simp [seqRegister]⟩
  | cons n rest ih =>
    obtain ⟨hb, hcase⟩ := tab2Step_cases db (registerInputs n addr ph)
    obtain ⟨t2, ht2⟩ := ih (tab2Step db (registerInputs n addr ph)).1
    rcases hcase with ⟨hc, hrest⟩ | ⟨hrest, c, hc⟩
    · exact ⟨t2, by rw [seqRegister, ht2, hc]⟩
    · exact ⟨[c] ++ t2, by rw [seqRegister, ht2, hc, List.append_assoc]⟩

/-- Closed form of the custids produced by sequential registration of
fresh, pairwise-distinct, nonempty names: exactly nextCustid,
nextCustid + 1, nextCustid + 2, ... -/
theorem seqRegister_custids (names : List String) :
    ∀ db : DB, ∀ addr ph : String, names.Nodup →
    (∀ n ∈ names, n.length > 0) →
    (∀ n ∈ names, ∀ c ∈ db.customers, c.name ≠ n) →
    addr ≠ "" →
    ((seqRegister db names addr ph).customers.drop db.customers.length).map
        (fun c => c.custid) =
      (List.range names.length).map (fun (i : Nat) => nextCustid db + (i : Int)) := by
  induction names with
  | nil =>
    intro db addr ph _ _ _ _
    simp [seqRegister]
  | cons n rest ih =>
    intro db addr ph hnd hlen habs haddr
    have hn : n.length > 0 := hlen n (List.mem_cons_self n rest)
    have hl : lookupCustid db n = none :=
      (findCustid_eq_none_iff _ _).mpr (habs n (List.mem_cons_self n rest))
    have hstep : (tab2Step db (registerInputs n addr ph)).1 =
        { db with customers := db.customers ++ [⟨nextCustid db, n, addr, ph⟩] } := by
      rw [tab2Step_register_eq hn hl rfl haddr]
      rfl
    rw [seqRegister, hstep]
    have hnmem : n ∉ rest := (List.nodup_cons.mp hnd).1
    have hnd' : rest.Nodup := (List.nodup_cons.mp hnd).2
    have hlen' : ∀ m ∈ rest, m.length > 0 :=
      fun m hm => hlen m (List.mem_cons_of_mem n hm)
    have habs' : ∀ m ∈ rest, ∀ c ∈
        ({ db with customers :=
          db.customers ++ [⟨nextCustid db, n, addr, ph⟩] } : DB).customers,
        c.name ≠ m := by
      intro m hm c hc
      rcases List.mem_append.mp hc with hco | hcn
      · exact habs m (List.mem_cons_of_mem n hm) c hco
      · rw [List.mem_singleton] at hcn
        subst hcn
        intro heq
        have heq' : n = m := heq
        exact hnmem (heq' ▸ hm)
    have IH := ih ({ db with customers :=
        db.customers ++ [⟨nextCustid db, n, addr, ph⟩] } : DB) addr ph hnd' hlen' habs' haddr
    obtain ⟨t, ht⟩ := seqRegister_extends rest
      ({ db with customers := db.customers ++ [⟨nextCustid db, n, addr, ph⟩] } : DB) addr ph
    rw [ht] at IH ⊢
    have hdropIH : ((db.customers ++ [(⟨nextCustid db, n, addr, ph⟩ : Customer)]) ++ t).drop
        (db.customers ++ [(⟨nextCustid db, n, addr, ph⟩ : Customer)]).length = t :=
      List.drop_left _ _
    rw [hdropIH] at IH
    have hdrop : ((db.customers ++ [(⟨nextCustid db, n, addr, ph⟩ : Customer)]) ++ t).drop
        db.customers.length = (⟨nextCustid db, n, addr, ph⟩ : Customer) :: t := by
      rw [List.append_assoc, List.drop_left]
      rfl
    rw [hdrop]
    have hnext : nextCustid { db with customers :=
        db.customers ++ [⟨nextCustid db, n, addr, ph⟩] } = nextCustid db + 1 :=
      nextCustid_append db ⟨nextCustid db, n, addr, ph⟩ rfl
    rw [hnext] at IH
    rw [List.map_cons, IH, List.length_cons, List.range_succ_eq_map,
      List.map_cons, List.map_map]
    congr 1
    · simp
    · apply List.map_congr_left
      intro a ha
      simp [Function.comp]
      ring

/-- The i-th entry of the arithmetic list base, base+1, ... -/
theorem map_range_getElem (base : Int) (k i : Nat) :
    ((List.range k).map (fun (j : Nat) => base + (j : Int)))[i]? =
      if i < k then some (base + (i : Int)) else none := by
  by_cases h : i < k
  · rw [List.getElem?_map, List.getElem?_range h, if_pos h]
    rfl
  · have hlen : ((List.range k).map (fun (j : Nat) => base + (j : Int))).length ≤ i := by
      simpa using Nat.le_of_not_lt h
    rw [List.getElem?_eq_none hlen, if_neg h]

/-- Claim C5: registering a sequence of pairwise-distinct fresh nonempty
names one at a time yields custids nextCustid, nextCustid + 1, ... —
strictly increasing and consecutive with no gaps. -/
theorem c5_sequential_custids (db : DB) (names : List String) (addr ph : String)
    (hnd : names.Nodup)
    (hlen : ∀ n ∈ names, n.length > 0)
    (habs : ∀ n ∈ names, ∀ c ∈ db.customers, c.name ≠ n)
    (haddr : addr ≠ "") :
    (((seqRegister db names addr ph).customers.drop db.customers.length).map
        (fun c => c.custid) =
      (List.range names.length).map (fun (i : Nat) => nextCustid db + (i : Int))) ∧
    (∀ (i j : Nat) (a b : Int), i < j →
      (((seqRegister db names addr ph).customers.drop db.customers.length).map
        (fun c => c.custid))[i]? = some a →
      (((seqRegister db names addr ph).customers.drop db.customers.length).map
        (fun c => c.custid))[j]? = some b → a < b) ∧
    (∀ (i : Nat) (a b : Int),
      (((seqRegister db names addr ph).customers.drop db.customers.length).map
        (fun c => c.custid))[i]? = some a →
      (((seqRegister db names addr ph).customers.drop db.customers.length).map
        (fun c => c.custid))[i + 1]? = some b → b = a + 1) := by
  have hc := seqRegister_custids names db addr ph hnd hlen habs haddr
  refine ⟨hc, ?_, ?_⟩
  · intro i j a b hij ha hb
    rw [hc, map_range_getElem] at ha hb
    by_cases hi : i < names.length
    · by_cases hj : j < names.length
      · rw [if_pos hi] at ha
        rw [if_pos hj] at hb
        have ha' := Option.some_inj.mp ha
        have hb' := Option.some_inj.mp hb
        omega
      · rw [if_neg hj] at hb
        exact absurd hb (by simp)
    · rw [if_neg hi] at ha
      exact absurd ha (by simp)
  · intro i a b ha hb
    rw [hc, map_range_getElem] at ha hb
    by_cases hi : i < names.length
    · by_cases hj : i + 1 < names.length
      · rw [if_pos hi] at ha
        rw [if_pos hj] at hb
        have ha' := Option.some_inj.mp ha
        have hb' := Option.some_inj.mp hb
        omega
      · rw [if_neg hj] at hb
        exact absurd hb (by simp)
    · rw [if_neg hi] at ha
      exact absurd ha (by simp)

/-- Witness for C5: two fresh names into an empty table give custids
1 and 2. -/
theorem c5_witness :
    ((seqRegister ⟨[], [], []⟩ ["kim", "lee"] "seoul" "1").customers.map
        (fun c => c.custid) = [1, 2]) ∧
    (((seqRegister ⟨[], [], []⟩ ["kim", "lee"] "seoul" "1").customers.drop 0).map
        (fun c => c.custid) =
      (List.range 2).map (fun (i : Nat) => nextCustid ⟨[], [], []⟩ + (i : Int))) :=
  ⟨by decide,
   (c5_sequential_custids ⟨[], [], []⟩ ["kim", "lee"] "seoul" "1" (by decide)
     (by decide) (by decide) (by decide)).1⟩

end Madang
